import Mathlib

set_option maxHeartbeats 1000000

namespace NuxtGraphqlMiddleware

/-!
Verification of the nuxt-graphql-middleware runtime: the client-side
reactive caching coordinator (src/runtime/composables/useAsyncGraphqlQuery.ts)
and the server-side request dispatch pipeline (whose hook surface is declared
in the server-options type file).
-/

/-!
Section 1: JSON-like variable values.

GraphQL variables are an unordered key-to-value map of serializable JSON
data.  `OVal` is the value universe, with objects and arrays represented by
the mutually defined list types `OFields` and `OVals` so that Lean compiles
every function on them by structural recursion (kernel-computable).
-/

mutual
/-- A JSON-like value, as accepted for GraphQL variables. -/
inductive OVal where
  | str (s : String)
  | num (n : Int)
  | bool (b : Bool)
  | null
  | obj (fields : OFields)
  | arr (elems : OVals)
/-- The field list of a JSON object, in insertion order. -/
inductive OFields where
  | nil
  | field (key : String) (value : OVal) (rest : OFields)
/-- The element list of a JSON array. -/
inductive OVals where
  | nil
  | elem (value : OVal) (rest : OVals)
end

/-- Insert one field into a key-sorted field list (insertion step of the
key normalization performed by the `ohash` serializer). -/
def insertOField (k : String) (v : OVal) : OFields → OFields
  | .nil => .field k v .nil
  | .field k2 v2 rest =>
      if k < k2 then .field k v (.field k2 v2 rest)
      else .field k2 v2 (insertOField k v rest)

/-- Sort a field list by key (the key normalization performed by the
`ohash` serializer before hashing an object). -/
def sortOFields : OFields → OFields
  | .nil => .nil
  | .field k v rest => insertOField k v (sortOFields rest)

mutual
/-- Canonicalize a value: sort the fields of every object by key, at every
depth.  This is the normalization `ohash` applies while serializing. -/
def canonVal : OVal → OVal
  | .str s => .str s
  | .num n => .num n
  | .bool b => .bool b
  | .null => .null
  | .obj fields => .obj (sortOFields (canonOFields fields))
  | .arr elems => .arr (canonOVals elems)
/-- Canonicalize every value of a field list. -/
def canonOFields : OFields → OFields
  | .nil => .nil
  | .field k v rest => .field k (canonVal v) (canonOFields rest)
/-- Canonicalize every element of an array. -/
def canonOVals : OVals → OVals
  | .nil => .nil
  | .elem v rest => .elem (canonVal v) (canonOVals rest)
end

/-- Number of fields of an object. -/
def fieldsLength : OFields → Nat
  | .nil => 0
  | .field _ _ rest => fieldsLength rest + 1

/-- Number of elements of an array. -/
def ovalsLength : OVals → Nat
  | .nil => 0
  | .elem _ rest => ovalsLength rest + 1

mutual
/-- Type-tagged serialization of a value, in the style of the `ohash`
object hasher: every value is written with a tag naming its type, objects
with their field count and field list, arrays with their length. -/
def serializeVal : OVal → String
  | .str s => "string:" ++ toString s.length ++ ":" ++ s
  | .num n => "number:" ++ toString n
  | .bool b => if b then "bool:true" else "bool:false"
  | .null => "null"
  | .obj fields => "object:" ++ toString (fieldsLength fields) ++ ":" ++ serializeOFields fields
  | .arr elems => "array:" ++ toString (ovalsLength elems) ++ ":" ++ serializeOVals elems
/-- Serialize a field list, one `key:value,` entry per field. -/
def serializeOFields : OFields → String
  | .nil => ""
  | .field k v rest => k ++ ":" ++ serializeVal v ++ "," ++ serializeOFields rest
/-- Serialize an array element list. -/
def serializeOVals : OVals → String
  | .nil => ""
  | .elem v rest => serializeVal v ++ "," ++ serializeOVals rest
end

/-- A variables map as the caller supplies it: an association list of field
names to values, in insertion order. -/
abbrev Variables := List (String × OVal)

/-- Convert a variables map to the object field-list representation. -/
def fieldsOfList : Variables → OFields
  | [] => .nil
  | (k, v) :: rest => .field k v (fieldsOfList rest)

/-- Model of the `hash` function of the `ohash` package, as used at
useAsyncGraphqlQuery.ts line 67 (`hash(unref(variables))`).  `ohash`
computes a content hash of a canonical, type-tagged serialization of its
argument in which object keys are sorted at every depth; the JavaScript
value `undefined` (variables absent) serializes to its own tag, distinct
from the serialization of an empty object.  The hash itself (a truncated
sha256 of the serialization, collision-free for practical purposes) is
modelled as the canonical serialization, of which it is a deterministic
function. -/
def ohashHash : Option Variables → String
  | none => "undefined"
  | some fields => serializeVal (canonVal (.obj (fieldsOfList fields)))

/-- The Operation Key, exactly as computed at useAsyncGraphqlQuery.ts
line 67: the string `graphql:` followed by the operation name, a colon and
the hash of the (unwrapped) variables. -/
def operationKey (name : String) (vars : Option Variables) : String :=
  "graphql:" ++ name ++ ":" ++ ohashHash vars

/-- The kind of a GraphQL operation. -/
inductive OperationKind where
  | query
  | mutation
deriving DecidableEq

/-- The Operation Key builder in the signature the spec gives it
(`buildKey(kind, name, variables)`, spec section 4.1): the key an
invocation of the given kind obtains.  The computation at
useAsyncGraphqlQuery.ts line 67 does not reference the operation kind, so
the kind parameter is unused. -/
def buildKey (_kind : OperationKind) (name : String) (vars : Option Variables) : String :=
  operationKey name vars

/-!
Section 2: the reactive caching coordinator, useAsyncGraphqlQuery.ts.
-/

/-- The variables argument of useAsyncGraphqlQuery as JavaScript sees it:
absent (or undefined or null), a plain object, or a Vue ref wrapping an
object. -/
inductive VarsArg where
  | undef
  | plain (v : Variables)
  | ref (v : Variables)

/-- Model of Vue `unref`: returns the wrapped value of a ref and any other
argument unchanged (absent stays absent). -/
def unref : VarsArg → Option Variables
  | .undef => none
  | .plain v => some v
  | .ref v => some v

/-- Model of Vue `isRef`. -/
def isRef : VarsArg → Bool
  | .ref _ => true
  | _ => false

/-- A getCachedData implementation carried in the async-data options:
either the payload lookup the composable installs (reading
`app.payload.data` at the key, useAsyncGraphqlQuery.ts lines 87 to 89), or
a caller-supplied function, identified by a tag. -/
inductive GetCachedDataFn where
  | payloadLookup
  | custom (id : Nat)
deriving DecidableEq

/-- The graphqlCaching option object (`graphqlCaching?: client?: boolean`). -/
structure GraphqlCachingOptions where
  client : Bool
deriving DecidableEq

/-- The slice of the AsyncDataOptions object that the composable reads or
writes: the watch list, the graphqlCaching option and getCachedData.
(The fetchOptions passthrough is not modelled; it does not influence the
key, the watch list, the caching setup or the request method.) -/
structure AsyncDataOptionsM where
  watch : Option (List VarsArg)
  graphqlCaching : Option GraphqlCachingOptions
  getCachedData : Option GetCachedDataFn

/-- The empty options object (`args[1] or` the empty object literal). -/
def emptyAsyncDataOptions : AsyncDataOptionsM :=
  { watch := none, graphqlCaching := none, getCachedData := none }

/-- Truthiness of `asyncDataOptions.graphqlCaching?.client`. -/
def clientCachingRequested (a : AsyncDataOptionsM) : Bool :=
  match a.graphqlCaching with
  | some g => g.client
  | none => false

/-- Lines 71 to 78 of useAsyncGraphqlQuery.ts: if the variables are
reactive (`variables and isRef(variables)`; a ref is always truthy),
create the watch array when absent and push the variables onto it. -/
def applyWatch (vars : VarsArg) (a : AsyncDataOptionsM) : AsyncDataOptionsM :=
  if isRef vars then
    match a.watch with
    | none => { a with watch := some ([] ++ [vars]) }
    | some w => { a with watch := some (w ++ [vars]) }
  else a

/-- Lines 80 to 90 of useAsyncGraphqlQuery.ts: on the client side, when
client caching is requested and the caller did not supply a getCachedData
of their own, install the payload lookup as getCachedData. -/
def applyClientCache (isClient : Bool) (a : AsyncDataOptionsM) : AsyncDataOptionsM :=
  if isClient && clientCachingRequested a && a.getCachedData.isNone then
    { a with getCachedData := some .payloadLookup }
  else a

/-- The arguments of the performRequest call issued by the fetcher closure
(useAsyncGraphqlQuery.ts lines 96 to 106): operation kind, operation name,
HTTP method, request parameters and the forwarded cache options.  The
`buildRequestParams` helper (repository code outside the sources at hand)
is modelled from the spec: a query-string encoding of the unwrapped
variables, carried here as the variables themselves. -/
structure RequestCall where
  operation : OperationKind
  name : String
  method : String
  params : Option Variables
  cacheOptions : Option GraphqlCachingOptions

/-- Everything useAsyncGraphqlQuery passes to useAsyncData: the key, the
(possibly updated) options object and the request the fetcher performs. -/
structure AsyncDataCall where
  key : String
  options : AsyncDataOptionsM
  request : RequestCall

/-- Shallow embedding of useAsyncGraphqlQuery (useAsyncGraphqlQuery.ts
lines 32 to 109): defaults the options object, derives the Operation Key
from the name and the unwrapped variables, registers reactive variables in
the watch list, installs the client payload-cache lookup when opted in,
and hands useAsyncData a fetcher that performs a `query` request with the
`get` method. -/
def useAsyncGraphqlQuery (isClient : Bool) (name : String) (vars : VarsArg)
    (options : Option AsyncDataOptionsM) : AsyncDataCall :=
  let asyncDataOptions := options.getD emptyAsyncDataOptions
  let key := operationKey name (unref vars)
  let asyncDataOptions := applyClientCache isClient (applyWatch vars asyncDataOptions)
  { key := key
    options := asyncDataOptions
    request :=
      { operation := .query
        name := name
        method := "get"
        params := unref vars
        cacheOptions := asyncDataOptions.graphqlCaching } }

/-!
Section 3: the fetch-with-cache primitive.

Nuxt useAsyncData itself is host-framework code outside this repository;
its behaviour is modelled from the spec (sections 4.5 and 8).
-/

/-- A GraphQL response payload: data plus an optional errors array. -/
structure GraphqlPayload where
  data : OVal
  errors : Option (List String)

/-- Outcome of one coordinator step: how many outbound dispatches were
issued and the data it settled with, if any. -/
structure CoordOutcome where
  dispatches : Nat
  settledData : Option GraphqlPayload

/-- Evaluate a getCachedData implementation: the installed payload lookup
reads the payload store at the key; a caller-supplied function is an
arbitrary lookup of its own. -/
def lookupCachedData (fn : GetCachedDataFn) (payloadStore : String → Option GraphqlPayload)
    (customImpl : Nat → String → Option GraphqlPayload) (key : String) : Option GraphqlPayload :=
  match fn with
  | .payloadLookup => payloadStore key
  | .custom id => customImpl id key

/-- Modelled from the spec: the first activation of the fetch-with-cache
primitive (Nuxt useAsyncData, host-framework code not among the sources).
When a getCachedData lookup is configured and returns a payload for the
current key, the coordinator settles with it and performs zero outbound
dispatches; otherwise it performs exactly one dispatch and settles with
the fetched payload (spec sections 4.5 and 8). -/
def firstActivation (call : AsyncDataCall) (payloadStore : String → Option GraphqlPayload)
    (customImpl : Nat → String → Option GraphqlPayload) (fetched : GraphqlPayload) : CoordOutcome :=
  match call.options.getCachedData with
  | some fn =>
      match lookupCachedData fn payloadStore customImpl call.key with
      | some cached => { dispatches := 0, settledData := some cached }
      | none => { dispatches := 1, settledData := some fetched }
  | none => { dispatches := 1, settledData := some fetched }

/-- Modelled from the spec: a change of a watched reactive input makes the
fetch-with-cache primitive re-invoke the fetcher exactly once (the cache
short circuit applies only on first activation, not on input change); a
change of an unwatched input triggers nothing (spec sections 4.5 and 8). -/
def inputChangeRefresh (watched : Bool) (fetched : GraphqlPayload) : CoordOutcome :=
  if watched then { dispatches := 1, settledData := some fetched }
  else { dispatches := 0, settledData := none }

/-!
Section 4: the server-side request dispatch pipeline.

The server-options type file declares the five optional hooks and their
contracts (each non-override hook is only called if no doGraphqlRequest
method is implemented; when doGraphqlRequest is implemented, all other
methods are not called).  The route handler that executes them is
repository code outside the sources at hand, so the dispatcher is
modelled from the spec (section 4.3) and those declarations.
-/

/-- The invocation context assembled once per dispatch (the
GraphqlMiddlewareDoRequestMethodContext type, minus the opaque H3 event). -/
structure InvocationContext where
  operation : OperationKind
  operationName : String
  operationDocument : String
  vars : Option Variables

/-- Outbound fetch options produced by serverFetchOptions (headers etc.). -/
structure FetchOptionsM where
  headers : List (String × String)

/-- A transport error: network failure or non-2xx status, with status code
and raw body. -/
structure TransportError where
  statusCode : Nat
  body : String
deriving DecidableEq

/-- What the single outbound call would produce: a 2xx payload or a
transport error. -/
inductive TransportOutcome where
  | success (response : GraphqlPayload)
  | failure (error : TransportError)

/-- The configurable hook set, mirroring GraphqlMiddlewareServerOptions:
graphqlEndpoint, serverFetchOptions, onServerResponse, onServerError and
doGraphqlRequest, each independently optional.  Hooks are modelled as
pure functions of the invocation context (plus the raw response or error
for the last two); the H3 event and promise wrappers are dropped. -/
structure ServerOptions where
  graphqlEndpoint : Option (InvocationContext → String)
  serverFetchOptions : Option (InvocationContext → FetchOptionsM)
  onServerResponse : Option (InvocationContext → GraphqlPayload → GraphqlPayload)
  onServerError : Option (InvocationContext → TransportError → GraphqlPayload)
  doGraphqlRequest : Option (InvocationContext → GraphqlPayload)

/-- Which hooks ran during one dispatch, and how many outbound transport
calls were issued. -/
structure HookTrace where
  doGraphqlRequestCalled : Bool
  graphqlEndpointCalled : Bool
  serverFetchOptionsCalled : Bool
  onServerResponseCalled : Bool
  onServerErrorCalled : Bool
  outboundCalls : Nat
deriving DecidableEq

/-- Modelled from the spec: the request dispatcher of the server route
handler (repository code outside the sources at hand), following spec
section 4.3 and the hook contracts declared in the server-options type
file.  If doGraphqlRequest is implemented it alone runs and its payload is
the result.  Otherwise the endpoint and fetch-option hooks are consulted
(each invoked only when configured, with defaults otherwise), exactly one
outbound call is issued, and on success onServerResponse (when configured)
post-processes the payload while on failure onServerError (when
configured) turns the error into a substitute payload; an unhandled
transport error propagates unchanged. -/
def doDispatch (opts : ServerOptions) (ctx : InvocationContext)
    (outcome : TransportOutcome) : Except TransportError GraphqlPayload × HookTrace :=
  match opts.doGraphqlRequest with
  | some override =>
      (Except.ok (override ctx),
       { doGraphqlRequestCalled := true, graphqlEndpointCalled := false
         serverFetchOptionsCalled := false, onServerResponseCalled := false
         onServerErrorCalled := false, outboundCalls := 0 })
  | none =>
      let endpointCalled := opts.graphqlEndpoint.isSome
      let fetchOptionsCalled := opts.serverFetchOptions.isSome
      match outcome with
      | .success response =>
          match opts.onServerResponse with
          | some h =>
              (Except.ok (h ctx response),
               { doGraphqlRequestCalled := false, graphqlEndpointCalled := endpointCalled
                 serverFetchOptionsCalled := fetchOptionsCalled, onServerResponseCalled := true
                 onServerErrorCalled := false, outboundCalls := 1 })
          | none =>
              (Except.ok response,
               { doGraphqlRequestCalled := false, graphqlEndpointCalled := endpointCalled
                 serverFetchOptionsCalled := fetchOptionsCalled, onServerResponseCalled := false
                 onServerErrorCalled := false, outboundCalls := 1 })
      | .failure err =>
          match opts.onServerError with
          | some h =>
              (Except.ok (h ctx err),
               { doGraphqlRequestCalled := false, graphqlEndpointCalled := endpointCalled
                 serverFetchOptionsCalled := fetchOptionsCalled, onServerResponseCalled := false
                 onServerErrorCalled := true, outboundCalls := 1 })
          | none =>
              (Except.error err,
               { doGraphqlRequestCalled := false, graphqlEndpointCalled := endpointCalled
                 serverFetchOptionsCalled := fetchOptionsCalled, onServerResponseCalled := false
                 onServerErrorCalled := false, outboundCalls := 1 })

/-- Modelled from the spec: the outbound HTTP method is fixed by the
operation kind; queries use the side-effect-free, cache-friendly `get`
verb (the literal the composable passes at useAsyncGraphqlQuery.ts line
100) and mutations use `post` (spec sections 4.3 and 6). -/
def methodForOperation : OperationKind → String
  | .query => "get"
  | .mutation => "post"

/-!
Section 5: the key normalization at the association-list level.

`insertPair` and `sortPairs` are the association-list counterparts of
`insertOField` and `sortOFields`; the correspondence lemmas below let the
permutation theory of `List` reach the object representation.
-/

/-- Insertion step of the key sort on association lists. -/
def insertPair (p : String × OVal) : Variables → Variables
  | [] => [p]
  | q :: rest => if p.1 < q.1 then p :: q :: rest else q :: insertPair p rest

/-- Key sort on association lists. -/
def sortPairs : Variables → Variables
  | [] => []
  | p :: rest => insertPair p (sortPairs rest)

theorem mem_insertPair (p q : String × OVal) (l : Variables) :
    q ∈ insertPair p l ↔ q = p ∨ q ∈ l := by
  induction l with
  | nil => simp [insertPair]
  | cons r rest ih =>
      by_cases h : p.1 < r.1
      · simp only [insertPair, if_pos h, List.mem_cons]
      · simp only [insertPair, if_neg h, List.mem_cons, ih]
        tauto

theorem insertPair_perm (p : String × OVal) (l : Variables) :
    (insertPair p l).Perm (p :: l) := by
  induction l with
  | nil => exact List.Perm.refl _
  | cons q rest ih =>
      by_cases h : p.1 < q.1
      · simp only [insertPair, if_pos h]
        exact List.Perm.refl _
      · simp only [insertPair, if_neg h]
        exact (ih.cons q).trans (List.Perm.swap p q rest)

theorem sortPairs_perm (l : Variables) : (sortPairs l).Perm l := by
  induction l with
  | nil => exact List.Perm.refl _
  | cons p rest ih =>
      simp only [sortPairs]
      exact (insertPair_perm p (sortPairs rest)).trans (ih.cons p)

theorem insertPair_pairwise (p : String × OVal) (l : Variables)
    (h : l.Pairwise fun a b => a.1 ≤ b.1) :
    (insertPair p l).Pairwise fun a b => a.1 ≤ b.1 := by
  induction l with
  | nil => simp [insertPair]
  | cons q rest ih =>
      rw [List.pairwise_cons] at h
      obtain ⟨hq, hrest⟩ := h
      by_cases hlt : p.1 < q.1
      · simp only [insertPair, if_pos hlt]
        refine List.pairwise_cons.mpr ⟨?_, List.pairwise_cons.mpr ⟨hq, hrest⟩⟩
        intro b hb
        rcases List.mem_cons.mp hb with rfl | hb
        · exact le_of_lt hlt
        · exact le_trans (le_of_lt hlt) (hq b hb)
      · simp only [insertPair, if_neg hlt]
        refine List.pairwise_cons.mpr ⟨?_, ih hrest⟩
        intro b hb
        rcases (mem_insertPair p b rest).mp hb with rfl | hb
        · exact le_of_not_lt hlt
        · exact hq b hb

theorem sortPairs_pairwise (l : Variables) :
    (sortPairs l).Pairwise fun a b => a.1 ≤ b.1 := by
  induction l with
  | nil => simp [sortPairs]
  | cons p rest ih =>
      simp only [sortPairs]
      exact insertPair_pairwise p _ ih

theorem sortPairs_sorted_lt (l : Variables) (hnd : (l.map Prod.fst).Nodup) :
    (sortPairs l).Pairwise fun a b => a.1 < b.1 := by
  have hperm : (sortPairs l).Perm l := sortPairs_perm l
  have hnd2 : ((sortPairs l).map Prod.fst).Nodup :=
    ((hperm.map Prod.fst).nodup_iff).mpr hnd
  have hne : (sortPairs l).Pairwise fun a b => a.1 ≠ b.1 := List.pairwise_map.mp hnd2
  exact ((sortPairs_pairwise l).and hne).imp fun h => lt_of_le_of_ne h.1 h.2

/-- The strict key order on fields is vacuously antisymmetric. -/
instance instKeyLtAntisymm : IsAntisymm (String × OVal) (fun a b => a.1 < b.1) :=
  ⟨fun _ _ h1 h2 => absurd (lt_trans h1 h2) (lt_irrefl _)⟩

/-- Key-sorting a map with unrepeated keys depends only on which
key-to-value pairs it holds, not on their order. -/
theorem sortPairs_eq_of_perm (v1 v2 : Variables) (hp : v1.Perm v2)
    (hnd : (v1.map Prod.fst).Nodup) : sortPairs v1 = sortPairs v2 := by
  have hnd2 : (v2.map Prod.fst).Nodup := ((hp.map Prod.fst).nodup_iff).mp hnd
  exact @List.eq_of_perm_of_sorted (String × OVal) (fun a b => a.1 < b.1)
    instKeyLtAntisymm _ _
    ((sortPairs_perm v1).trans (hp.trans (sortPairs_perm v2).symm))
    (sortPairs_sorted_lt v1 hnd) (sortPairs_sorted_lt v2 hnd2)

theorem insertOField_fieldsOfList (k : String) (v : OVal) (l : Variables) :
    insertOField k v (fieldsOfList l) = fieldsOfList (insertPair (k, v) l) := by
  induction l with
  | nil => rfl
  | cons q rest ih =>
      obtain ⟨k2, v2⟩ := q
      by_cases h : k < k2
      · simp [fieldsOfList, insertOField, insertPair, h]
      · simp [fieldsOfList, insertOField, insertPair, h, ih]

theorem sortOFields_fieldsOfList (l : Variables) :
    sortOFields (fieldsOfList l) = fieldsOfList (sortPairs l) := by
  induction l with
  | nil => rfl
  | cons p rest ih =>
      obtain ⟨k, v⟩ := p
      simp [fieldsOfList, sortOFields, sortPairs, ih, insertOField_fieldsOfList]

/-- Canonicalization of the field values at the association-list level. -/
def canonPairs (l : Variables) : Variables :=
  l.map fun f => (f.1, canonVal f.2)

theorem canonOFields_fieldsOfList (l : Variables) :
    canonOFields (fieldsOfList l) = fieldsOfList (canonPairs l) := by
  induction l with
  | nil => rfl
  | cons p rest ih =>
      obtain ⟨k, v⟩ := p
      simp [fieldsOfList, canonOFields, canonPairs, ih]

theorem canonPairs_fst (l : Variables) : (canonPairs l).map Prod.fst = l.map Prod.fst := by
  induction l with
  | nil => rfl
  | cons p rest ih => simp [canonPairs, ih]

/-- The modelled ohash hash of a variables map with unrepeated keys is
invariant under reordering of its entries. -/
theorem ohashHash_perm (v1 v2 : Variables) (hp : v1.Perm v2)
    (hnd : (v1.map Prod.fst).Nodup) :
    ohashHash (some v1) = ohashHash (some v2) := by
  have hmap : (canonPairs v1).Perm (canonPairs v2) := hp.map _
  have hnd1 : ((canonPairs v1).map Prod.fst).Nodup := by
    rw [canonPairs_fst]
    exact hnd
  have hsort : sortPairs (canonPairs v1) = sortPairs (canonPairs v2) :=
    sortPairs_eq_of_perm _ _ hmap hnd1
  have h1 : canonVal (OVal.obj (fieldsOfList v1))
      = OVal.obj (fieldsOfList (sortPairs (canonPairs v1))) := by
    rw [show canonVal (OVal.obj (fieldsOfList v1))
          = OVal.obj (sortOFields (canonOFields (fieldsOfList v1))) from rfl,
        canonOFields_fieldsOfList, sortOFields_fieldsOfList]
  have h2 : canonVal (OVal.obj (fieldsOfList v2))
      = OVal.obj (fieldsOfList (sortPairs (canonPairs v2))) := by
    rw [show canonVal (OVal.obj (fieldsOfList v2))
          = OVal.obj (sortOFields (canonOFields (fieldsOfList v2))) from rfl,
        canonOFields_fieldsOfList, sortOFields_fieldsOfList]
  show serializeVal (canonVal (.obj (fieldsOfList v1)))
      = serializeVal (canonVal (.obj (fieldsOfList v2)))
  rw [h1, h2, hsort]

/-!
Section 6: helper lemmas about the option transformations of the
composable.
-/

theorem applyWatch_getCachedData (v : VarsArg) (a : AsyncDataOptionsM) :
    (applyWatch v a).getCachedData = a.getCachedData := by
  unfold applyWatch
  split
  · rcases h : a.watch with _ | w <;> simp
  · rfl

theorem applyWatch_graphqlCaching (v : VarsArg) (a : AsyncDataOptionsM) :
    (applyWatch v a).graphqlCaching = a.graphqlCaching := by
  unfold applyWatch
  split
  · rcases h : a.watch with _ | w <;> simp
  · rfl

theorem applyWatch_clientCachingRequested (v : VarsArg) (a : AsyncDataOptionsM) :
    clientCachingRequested (applyWatch v a) = clientCachingRequested a := by
  unfold clientCachingRequested
  rw [applyWatch_graphqlCaching]

theorem applyClientCache_watch (c : Bool) (a : AsyncDataOptionsM) :
    (applyClientCache c a).watch = a.watch := by
  unfold applyClientCache
  split <;> simp

theorem applyClientCache_getCachedData (c : Bool) (a : AsyncDataOptionsM) :
    (applyClientCache c a).getCachedData =
      if c && clientCachingRequested a && a.getCachedData.isNone
      then some GetCachedDataFn.payloadLookup else a.getCachedData := by
  unfold applyClientCache
  split
  · next h => simp [h]
  · next h => simp [h]

theorem applyWatch_ref_mem (v : Variables) (a : AsyncDataOptionsM) :
    VarsArg.ref v ∈ ((applyWatch (VarsArg.ref v) a).watch.getD []) := by
  unfold applyWatch
  rw [if_pos (show isRef (VarsArg.ref v) = true from rfl)]
  rcases h : a.watch with _ | w <;> simp

/-- The getCachedData the composable hands to useAsyncData: the payload
lookup exactly when on the client with client caching requested and no
caller-supplied lookup, the caller-supplied value otherwise. -/
theorem useAsyncGraphqlQuery_getCachedData (isClient : Bool) (n : String)
    (v : VarsArg) (opts : AsyncDataOptionsM) :
    (useAsyncGraphqlQuery isClient n v (some opts)).options.getCachedData =
      if isClient && clientCachingRequested opts && opts.getCachedData.isNone
      then some GetCachedDataFn.payloadLookup
      else opts.getCachedData := by
  show (applyClientCache isClient (applyWatch v opts)).getCachedData = _
  rw [applyClientCache_getCachedData, applyWatch_getCachedData,
    applyWatch_clientCachingRequested]

/-!
Section 7: the claims.
-/

/-- C1: per dispatch exactly one of the two paths runs.  When
doGraphqlRequest is configured it alone is called: none of
graphqlEndpoint, serverFetchOptions, onServerResponse or onServerError
runs and the dispatcher issues no outbound call of its own.  When it is
not configured the full override is never called and the standard
hook-chain path runs, issuing exactly one outbound call — never both
paths, never neither. -/
theorem doGraphqlRequest_fullOverride_exclusive (opts : ServerOptions)
    (ctx : InvocationContext) (outcome : TransportOutcome) :
    (opts.doGraphqlRequest.isSome = true →
       (doDispatch opts ctx outcome).2.doGraphqlRequestCalled = true
     ∧ (doDispatch opts ctx outcome).2.graphqlEndpointCalled = false
     ∧ (doDispatch opts ctx outcome).2.serverFetchOptionsCalled = false
     ∧ (doDispatch opts ctx outcome).2.onServerResponseCalled = false
     ∧ (doDispatch opts ctx outcome).2.onServerErrorCalled = false
     ∧ (doDispatch opts ctx outcome).2.outboundCalls = 0)
  ∧ (opts.doGraphqlRequest.isSome = false →
       (doDispatch opts ctx outcome).2.doGraphqlRequestCalled = false
     ∧ (doDispatch opts ctx outcome).2.outboundCalls = 1) := by
  obtain ⟨ge, sfo, osr, ose, dgr⟩ := opts
  cases dgr with
  | some f => exact ⟨fun _ => ⟨rfl, rfl, rfl, rfl, rfl, rfl⟩, fun h => by simp at h⟩
  | none =>
      cases outcome with
      | success r =>
          cases osr with
          | some h0 => exact ⟨fun h => by simp at h, fun _ => ⟨rfl, rfl⟩⟩
          | none => exact ⟨fun h => by simp at h, fun _ => ⟨rfl, rfl⟩⟩
      | failure e =>
          cases ose with
          | some h0 => exact ⟨fun h => by simp at h, fun _ => ⟨rfl, rfl⟩⟩
          | none => exact ⟨fun h => by simp at h, fun _ => ⟨rfl, rfl⟩⟩

/-- Witness for C1: a dispatch with a configured doGraphqlRequest runs the
full-override path alone. -/
theorem doGraphqlRequest_fullOverride_exclusive_witness :
    (doDispatch
        { graphqlEndpoint := none, serverFetchOptions := none, onServerResponse := none
          onServerError := none
          doGraphqlRequest := some fun _ => { data := OVal.null, errors := none } }
        { operation := .query, operationName := "films", operationDocument := "d", vars := none }
        (.success { data := OVal.null, errors := none })).2.doGraphqlRequestCalled = true
  ∧ (doDispatch
        { graphqlEndpoint := none, serverFetchOptions := none, onServerResponse := none
          onServerError := none
          doGraphqlRequest := some fun _ => { data := OVal.null, errors := none } }
        { operation := .query, operationName := "films", operationDocument := "d", vars := none }
        (.success { data := OVal.null, errors := none })).2.graphqlEndpointCalled = false
  ∧ (doDispatch
        { graphqlEndpoint := none, serverFetchOptions := none, onServerResponse := none
          onServerError := none
          doGraphqlRequest := some fun _ => { data := OVal.null, errors := none } }
        { operation := .query, operationName := "films", operationDocument := "d", vars := none }
        (.success { data := OVal.null, errors := none })).2.serverFetchOptionsCalled = false
  ∧ (doDispatch
        { graphqlEndpoint := none, serverFetchOptions := none, onServerResponse := none
          onServerError := none
          doGraphqlRequest := some fun _ => { data := OVal.null, errors := none } }
        { operation := .query, operationName := "films", operationDocument := "d", vars := none }
        (.success { data := OVal.null, errors := none })).2.onServerResponseCalled = false
  ∧ (doDispatch
        { graphqlEndpoint := none, serverFetchOptions := none, onServerResponse := none
          onServerError := none
          doGraphqlRequest := some fun _ => { data := OVal.null, errors := none } }
        { operation := .query, operationName := "films", operationDocument := "d", vars := none }
        (.success { data := OVal.null, errors := none })).2.onServerErrorCalled = false
  ∧ (doDispatch
        { graphqlEndpoint := none, serverFetchOptions := none, onServerResponse := none
          onServerError := none
          doGraphqlRequest := some fun _ => { data := OVal.null, errors := none } }
        { operation := .query, operationName := "films", operationDocument := "d", vars := none }
        (.success { data := OVal.null, errors := none })).2.outboundCalls = 0 :=
  (doGraphqlRequest_fullOverride_exclusive _ _ _).1 rfl

/-- C2: for every kind, name and pair of variable maps holding the same
key-to-value pairs (keys unrepeated) in possibly different insertion
order, the operation-key builder produces the same key. -/
theorem buildKey_insertion_order_invariant (k : OperationKind) (n : String)
    (v1 v2 : Variables) (hp : v1.Perm v2) (hnd : (v1.map Prod.fst).Nodup) :
    buildKey k n (some v1) = buildKey k n (some v2) := by
  unfold buildKey operationKey
  rw [ohashHash_perm v1 v2 hp hnd]

/-- Witness for C2 at a concrete pair of maps differing only in key
insertion order. -/
theorem buildKey_insertion_order_invariant_witness :
    ([("a", OVal.num 1), ("b", OVal.num 2)] : Variables).Perm
        [("b", OVal.num 2), ("a", OVal.num 1)]
  ∧ (([("a", OVal.num 1), ("b", OVal.num 2)] : Variables).map Prod.fst).Nodup
  ∧ buildKey .query "films" (some [("a", OVal.num 1), ("b", OVal.num 2)])
      = buildKey .query "films" (some [("b", OVal.num 2), ("a", OVal.num 1)]) :=
  ⟨List.Perm.swap ("b", OVal.num 2) ("a", OVal.num 1) [],
   by decide,
   buildKey_insertion_order_invariant .query "films" _ _
     (List.Perm.swap ("b", OVal.num 2) ("a", OVal.num 1) []) (by decide)⟩

/-- Counterexample to C3 as stated: a query and a mutation invocation
with the same name and variables obtain the same key, because the key
computed at useAsyncGraphqlQuery.ts line 67 never mentions the kind. -/
theorem buildKey_kind_counterexample :
    buildKey .query "filmById" (some [("id", OVal.str "123")])
      = buildKey .mutation "filmById" (some [("id", OVal.str "123")]) := rfl

/-- C3 (amended): the Operation Key is a deterministic function of the
operation name and the normalized serialization of the variables alone;
the operation kind does not enter the key, so two invocations differing
only in kind obtain the same key. -/
theorem buildKey_kind_independent (k1 k2 : OperationKind) (n : String)
    (v : Option Variables) : buildKey k1 n v = buildKey k2 n v := rfl

/-- Counterexample to C4 as stated: with variables absent and with the
empty variables object the composable computes distinct Operation Keys. -/
theorem absent_vs_empty_counterexample :
    buildKey .query "films" none ≠ buildKey .query "films" (some []) := by decide

/-- C4 (amended): invoking with no variables and with the empty object are
both accepted without failure, but they are not key-equivalent: for every
kind and name the two produce distinct Operation Keys, because the hash
gives the absent value and the empty object distinct canonical
serializations rather than one shared sentinel. -/
theorem absent_vs_empty_distinct_keys (k : OperationKind) (n : String) :
    buildKey k n none ≠ buildKey k n (some []) := by
  have e1 : buildKey k n none = "graphql:" ++ n ++ ":" ++ "undefined" := rfl
  have e2 : buildKey k n (some []) = "graphql:" ++ n ++ ":" ++ "object:0:" := rfl
  rw [e1, e2]
  intro h
  have h2 := congrArg String.data h
  simp only [String.data_append] at h2
  exact absurd (List.append_cancel_left h2) (by decide)

/-- Witness for the amended C4 at another concrete kind and name. -/
theorem absent_vs_empty_distinct_keys_witness :
    buildKey .mutation "users" none ≠ buildKey .mutation "users" (some []) :=
  absent_vs_empty_distinct_keys .mutation "users"

/-- C5: with client caching opted in, no caller-supplied getCachedData and
a payload pre-seeded in the store under the current Operation Key, the
first activation settles with the cached payload and performs zero
dispatches; changing the reactive variables to a value with a different
key re-invokes the fetcher exactly once (modelled fetch-with-cache
primitive). -/
theorem cached_first_activation_then_refetch (n : String) (v1 v2 : Variables)
    (opts : AsyncDataOptionsM) (payloadStore : String → Option GraphqlPayload)
    (customImpl : Nat → String → Option GraphqlPayload)
    (cached fetched fetched2 : GraphqlPayload)
    (hclient : clientCachingRequested opts = true)
    (hnoCustom : opts.getCachedData = none)
    (hseed : payloadStore (operationKey n (some v1)) = some cached)
    (hne : operationKey n (some v2) ≠ operationKey n (some v1)) :
    firstActivation (useAsyncGraphqlQuery true n (.ref v1) (some opts))
        payloadStore customImpl fetched
      = { dispatches := 0, settledData := some cached }
  ∧ (useAsyncGraphqlQuery true n (.ref v2) (some opts)).key
      ≠ (useAsyncGraphqlQuery true n (.ref v1) (some opts)).key
  ∧ inputChangeRefresh true fetched2
      = { dispatches := 1, settledData := some fetched2 } := by
  refine ⟨?_, hne, rfl⟩
  have hg : (useAsyncGraphqlQuery true n (.ref v1) (some opts)).options.getCachedData
      = some GetCachedDataFn.payloadLookup := by
    rw [useAsyncGraphqlQuery_getCachedData, hclient, hnoCustom]
    rfl
  have hstep : firstActivation (useAsyncGraphqlQuery true n (.ref v1) (some opts))
        payloadStore customImpl fetched
      = match payloadStore (operationKey n (some v1)) with
        | some c => { dispatches := 0, settledData := some c }
        | none => { dispatches := 1, settledData := some fetched } := by
    unfold firstActivation
    rw [hg]
    rfl
  rw [hstep, hseed]

/-- Witness for C5: a concrete seeded store serves the first activation
from the cache with zero dispatches. -/
theorem cached_first_activation_then_refetch_witness :
    (fun k => if k = operationKey "films" (some [("id", OVal.str "1")])
              then some ({ data := OVal.null, errors := none } : GraphqlPayload) else none)
        (operationKey "films" (some [("id", OVal.str "1")]))
      = some ({ data := OVal.null, errors := none } : GraphqlPayload)
  ∧ firstActivation
      (useAsyncGraphqlQuery true "films" (.ref [("id", OVal.str "1")])
        (some { watch := none, graphqlCaching := some { client := true }, getCachedData := none }))
      (fun k => if k = operationKey "films" (some [("id", OVal.str "1")])
                then some ({ data := OVal.null, errors := none } : GraphqlPayload) else none)
      (fun _ _ => none) { data := OVal.str "fetched", errors := none }
      = { dispatches := 0, settledData := some { data := OVal.null, errors := none } } := by
  constructor
  · simp
  · exact (cached_first_activation_then_refetch "films"
      [("id", OVal.str "1")] [("id", OVal.str "2")]
      { watch := none, graphqlCaching := some { client := true }, getCachedData := none }
      (fun k => if k = operationKey "films" (some [("id", OVal.str "1")])
                then some ({ data := OVal.null, errors := none } : GraphqlPayload) else none)
      (fun _ _ => none)
      { data := OVal.null, errors := none }
      { data := OVal.str "fetched", errors := none }
      { data := OVal.str "fetched", errors := none }
      rfl rfl (by simp) (by decide)).1

/-- C6: a reactive variables argument is registered as a watched
dependency of the async-data wrapper, and a change of a watched input
re-invokes the dispatch exactly once (modelled fetch-with-cache
primitive). -/
theorem reactive_variables_watched (isClient : Bool) (n : String) (v : Variables)
    (opts : Option AsyncDataOptionsM) (fetched : GraphqlPayload) :
    VarsArg.ref v ∈ ((useAsyncGraphqlQuery isClient n (.ref v) opts).options.watch.getD [])
  ∧ inputChangeRefresh true fetched
      = { dispatches := 1, settledData := some fetched } := by
  constructor
  · show VarsArg.ref v ∈
      ((applyClientCache isClient
          (applyWatch (VarsArg.ref v) (opts.getD emptyAsyncDataOptions))).watch.getD [])
    rw [applyClientCache_watch]
    exact applyWatch_ref_mem v _
  · rfl

/-- C7: the outbound transport method is fixed by the operation kind: the
coordinator dispatches its operation as a query with the `get` verb, the
modelled method assignment sends mutations with `post`, and the
dispatcher issues exactly one outbound call per standard-path dispatch
(and none when the full override owns the request) — no implicit retry. -/
theorem request_method_fixed_by_kind (isClient : Bool) (n : String) (v : VarsArg)
    (opts : Option AsyncDataOptionsM) :
    (useAsyncGraphqlQuery isClient n v opts).request.method
      = methodForOperation (useAsyncGraphqlQuery isClient n v opts).request.operation
  ∧ methodForOperation .query = "get"
  ∧ methodForOperation .mutation = "post"
  ∧ ∀ (sopts : ServerOptions) (ctx : InvocationContext) (o : TransportOutcome),
      (doDispatch sopts ctx o).2.outboundCalls
        = if sopts.doGraphqlRequest.isSome then 0 else 1 := by
  refine ⟨rfl, rfl, rfl, ?_⟩
  intro sopts ctx o
  obtain ⟨ge, sfo, osr, ose, dgr⟩ := sopts
  cases dgr with
  | some f => rfl
  | none =>
      cases o with
      | success r => cases osr <;> rfl
      | failure e => cases ose <;> rfl

/-- C8: on a transport failure in the standard path, a configured
onServerError hook turns the error into a successfully resolved
substitute payload; with no onServerError hook the transport error
propagates unchanged. -/
theorem onServerError_substitution (opts : ServerOptions) (ctx : InvocationContext)
    (err : TransportError) (hfull : opts.doGraphqlRequest = none) :
    (∀ h, opts.onServerError = some h →
        (doDispatch opts ctx (.failure err)).1 = Except.ok (h ctx err))
  ∧ (opts.onServerError = none →
        (doDispatch opts ctx (.failure err)).1 = Except.error err) := by
  obtain ⟨ge, sfo, osr, ose, dgr⟩ := opts
  cases dgr with
  | some f => simp at hfull
  | none =>
      cases ose with
      | some h0 =>
          refine ⟨?_, ?_⟩
          · intro h hh
            obtain rfl : h0 = h :=
              Option.some.inj (show (some h0 : Option _) = some h from hh)
            rfl
          · intro hh
            exact absurd (show (some h0 : Option _) = none from hh) (by simp)
      | none =>
          exact ⟨fun h hh => absurd (show (none : Option _) = some h from hh) (by simp),
            fun _ => rfl⟩

/-- Witness for C8: with a substitute-returning onServerError the dispatch
resolves with the substitute; without it the same error propagates. -/
theorem onServerError_substitution_witness :
    (doDispatch
        { graphqlEndpoint := none, serverFetchOptions := none, onServerResponse := none
          onServerError := some fun _ e => { data := OVal.str e.body, errors := some ["substituted"] }
          doGraphqlRequest := none }
        { operation := .query, operationName := "films", operationDocument := "d", vars := none }
        (.failure { statusCode := 500, body := "oops" })).1
      = Except.ok { data := OVal.str "oops", errors := some ["substituted"] }
  ∧ (doDispatch
        { graphqlEndpoint := none, serverFetchOptions := none, onServerResponse := none
          onServerError := none, doGraphqlRequest := none }
        { operation := .query, operationName := "films", operationDocument := "d", vars := none }
        (.failure { statusCode := 500, body := "oops" })).1
      = Except.error { statusCode := 500, body := "oops" } :=
  ⟨(onServerError_substitution _ _ _ rfl).1 _ rfl,
   (onServerError_substitution _ _ _ rfl).2 rfl⟩

/-- C9: a plain variables object and a ref wrapping the structurally same
object yield the same Operation Key: the key is computed from the
unwrapped value, not the wrapper. -/
theorem operationKey_unwraps_ref (isClient : Bool) (n : String) (v : Variables)
    (opts : Option AsyncDataOptionsM) :
    (useAsyncGraphqlQuery isClient n (.plain v) opts).key
      = (useAsyncGraphqlQuery isClient n (.ref v) opts).key := rfl

/-- C10: the payload-cache lookup is installed as getCachedData exactly
when execution is on the client, client caching was opted in via
graphqlCaching.client, and the caller supplied no getCachedData of their
own; a caller-supplied getCachedData is kept unchanged. -/
theorem getCachedData_client_opt_in (isClient : Bool) (n : String) (v : VarsArg)
    (opts : AsyncDataOptionsM) :
    (useAsyncGraphqlQuery isClient n v (some opts)).options.getCachedData =
      if isClient && clientCachingRequested opts && opts.getCachedData.isNone
      then some GetCachedDataFn.payloadLookup
      else opts.getCachedData :=
  useAsyncGraphqlQuery_getCachedData isClient n v opts

end NuxtGraphqlMiddleware
